import Mathlib

/-!
Verification of the quote authorization-and-workflow core of the
stark-products-platform repository.

The Python source (`routes/quotes.py`, `backend/auth.py`, `models/company.py`)
is shallowly embedded below: Mongo documents become structures (fields a raw
document may lack are `Option`), monetary amounts are rationals, identifiers
and role/status strings are `String` (the source compares them as strings),
database lookups are association-list searches returning `Option` (a lookup
that raises in the source is caught and treated as "not found" there, so it
is `none` here), and HTTP error responses become an explicit error type.
Fields of the source records that no verified property touches (timestamps,
customer contact details, product metadata) are elided.
-/

namespace StarkProducts

/-- A quote line item, mirroring `QuoteItemRequest` plus the
`original_price` / `discount_applied` keys that `apply_bulk_discount`
writes into the stored item documents (absent until first written). -/
structure QuoteItem where
  product_id : String
  product_name : String
  quantity : Nat
  unit_price : Option ℚ
  original_price : Option ℚ := none
  discount_applied : Option ℚ := none
  deriving Repr, DecidableEq

/-- A stored quote document (fields used by the verified properties). -/
structure Quote where
  id : String
  items : List QuoteItem
  status : String
  total_estimate : Option ℚ
  notes : Option String
  admin_notes : Option String
  created_by : String
  deriving Repr, DecidableEq

/-- The authenticated identity (`User` in `backend/auth.py`); `role` is the
string value of the `UserRole` enum, `permissions` the custom per-user
permission overrides. -/
structure User where
  id : String
  role : String
  company_id : Option String := none
  permissions : List String := []
  deriving Repr, DecidableEq

/-- A raw company document. `quote_sharing_enabled` is `none` when the key
is absent from the stored document (the source reads it with
`company.get("quote_sharing_enabled", True)`). -/
structure Company where
  id : String
  quote_sharing_enabled : Option Bool
  deriving Repr, DecidableEq

/-- A user document as seen by `db.users.find_one` inside
`can_access_quote` (only `company_id` is read). -/
structure UserDoc where
  id : String
  company_id : Option String
  deriving Repr, DecidableEq

/-- The read-only directories `can_access_quote` consults. -/
structure Db where
  companies : List Company
  users : List UserDoc
  deriving Repr, DecidableEq

def find_company (db : Db) (cid : String) : Option Company :=
  db.companies.find? (fun c => c.id = cid)

def find_user (db : Db) (uid : String) : Option UserDoc :=
  db.users.find? (fun u => u.id = uid)

/-- HTTP-level failures raised by the route handlers: the pydantic
request-validation rejections that fire before a handler runs, the explicit
4xx responses, and `internalError` for the generic HTTP 500 produced when an
uncaught exception reaches a handler's outer `except`. -/
inductive ApiError where
  | validationError
  | notFound
  | forbidden
  | noOpTransition
  | noItems
  | internalError
  deriving Repr, DecidableEq

/-! ## PermissionResolver (`backend/auth.py`) -/

/-- The `ROLE_PERMISSIONS` dict, as an association list from the role's
string value to its permission list. -/
def ROLE_PERMISSIONS : List (String × List String) :=
  [ ("admin",
      [ "users:create", "users:read", "users:update", "users:delete",
        "products:create", "products:read", "products:update", "products:delete",
        "quotes:create", "quotes:read", "quotes:update", "quotes:delete",
        "analytics:read", "system:admin" ]),
    ("manager",
      [ "users:read", "users:update",
        "products:read", "products:update",
        "quotes:create", "quotes:read", "quotes:update",
        "analytics:read" ]),
    ("sales_rep",
      [ "products:read",
        "quotes:create", "quotes:read", "quotes:update",
        "customers:read" ]),
    ("customer",
      [ "products:read",
        "quotes:create", "quotes:read" ]),
    ("company_admin",
      [ "products:read",
        "quotes:create", "quotes:read", "quotes:update",
        "company:manage" ]) ]

/-- Python `dict.get(key, [])` on an association list. -/
def dict_get (table : List (String × List String)) (role : String) : List String :=
  match table.find? (fun p => p.1 = role) with
  | some p => p.2
  | none => []

/-- `get_user_permissions(role)` = `ROLE_PERMISSIONS.get(role, [])`. -/
def get_user_permissions (role : String) : List String :=
  dict_get ROLE_PERMISSIONS role

/-- The permission computation inside `require_permissions`'s
`permission_checker`: it binds the table's list for the user's role and then
calls `.extend(current_user.permissions)` on it. In Python the dict stores a
reference to that very list, so the `extend` also mutates the table entry.
The returned pair is (the effective permission list, the table as it stands
after the call). -/
def permission_checker (table : List (String × List String)) (user : User) :
    List String × List (String × List String) :=
  let base := dict_get table user.role
  let perms := base ++ user.permissions
  (perms, table.map (fun p => if p.1 = user.role then (p.1, perms) else p))

/-! ## Quote helpers (`routes/quotes.py`) -/

/-- `calculate_quote_total`: accumulates `unit_price * quantity` over items
with a non-null price, tracking whether any item was priced. -/
def calculate_quote_total (items : List QuoteItem) : Option ℚ :=
  let p := items.foldl
    (fun (acc : ℚ × Bool) item =>
      match item.unit_price with
      | some price => (acc.1 + price * (item.quantity : ℚ), true)
      | none => acc)
    (0, false)
  if p.2 then some p.1 else none

/-- Sum of `unit_price * quantity` restricted to items with a non-null
`unit_price` — the spec's wording of the total (§3), for comparison with
`calculate_quote_total`. -/
def priced_sum (items : List QuoteItem) : ℚ :=
  ((items.filter (fun i => i.unit_price.isSome)).map
    (fun i => i.unit_price.getD 0 * (i.quantity : ℚ))).sum

/-- The spec's wording of the `total_estimate` invariant (§3): the sum over
priced items, or `null` when no item in the quote has a price. Stated from
the spec, to be compared with the source's `calculate_quote_total`. -/
def total_spec (items : List QuoteItem) : Option ℚ :=
  if ∀ i ∈ items, i.unit_price = none then none else some (priced_sum items)

/-- `can_access_quote(quote, user, db)`. The two `find_one` lookups are
wrapped in a `try` whose handler falls through to `return False`, so a
lookup that raises behaves like `none` here. The endpoints always pass a
database handle, so the `db` argument is not optional in the embedding. -/
def can_access_quote (quote : Quote) (user : User) (db : Db) : Bool :=
  if user.role = "admin" ∨ user.role = "manager" then true
  else if quote.created_by = user.id then true
  else
    match user.company_id with
    | none => false
    | some cid =>
      match find_company db cid with
      | none => false
      | some company =>
        if company.quote_sharing_enabled.getD true then
          match find_user db quote.created_by with
          | none => false
          | some creator => decide (creator.company_id = some cid)
        else false

/-! ## Quote creation and update -/

/-- The fields of `QuoteRequest` that the verified properties read. -/
structure QuoteRequest where
  items : List QuoteItem
  notes : Option String := none
  deriving Repr, DecidableEq

/-- `create_quote`: builds the new quote document with status `draft` and
`total_estimate` computed from the request items. The fresh document id is
supplied by the store. -/
def create_quote (req : QuoteRequest) (user : User) (qid : String) : Quote :=
  { id := qid
    items := req.items
    status := "draft"
    total_estimate := calculate_quote_total req.items
    notes := req.notes
    admin_notes := none
    created_by := user.id }

/-- The `QuoteUpdate` request body. -/
structure QuoteUpdate where
  items : Option (List QuoteItem) := none
  status : Option String := none
  notes : Option String := none
  admin_notes : Option String := none
  total_estimate : Option ℚ := none
  deriving Repr, DecidableEq

/-- The status strings accepted by `QuoteUpdate`'s pydantic pattern
`^(draft|pending|approved|rejected|expired)$`. -/
def update_status_allowed : List String :=
  ["draft", "pending", "approved", "rejected", "expired"]

/-- `update_quote`: pydantic pattern validation on `status` fires before the
handler; then only the creator or staff (`admin`/`manager`) may update; the
update document is built field by field (a provided item list recomputes
`total_estimate`; a falsy — empty — item list is skipped), and the staff-only
`admin_notes` / `total_estimate` overrides are applied last, so a staff
`total_estimate` wins over the recomputed one. -/
def update_quote (quote : Quote) (upd : QuoteUpdate) (user : User) :
    Except ApiError Quote :=
  if ¬ (∀ s ∈ upd.status, s ∈ update_status_allowed) then .error .validationError
  else if quote.created_by ≠ user.id ∧ user.role ≠ "admin" ∧ user.role ≠ "manager" then
    .error .forbidden
  else
    let q1 :=
      match upd.items with
      | some its =>
        if its.isEmpty then quote
        else { quote with items := its, total_estimate := calculate_quote_total its }
      | none => quote
    let q2 := match upd.status with | some s => { q1 with status := s } | none => q1
    let q3 := match upd.notes with | some n => { q2 with notes := some n } | none => q2
    let q4 :=
      if user.role = "admin" ∨ user.role = "manager" then
        let qa :=
          match upd.admin_notes with
          | some n => { q3 with admin_notes := some n }
          | none => q3
        match upd.total_estimate with
        | some t => { qa with total_estimate := some t }
        | none => qa
      else q3
    .ok q4

/-! ## Status transitions -/

/-- The status strings accepted by `StatusChangeRequest`'s pydantic pattern
`^(draft|pending|sent|approved|rejected|expired)$` — note the absence of
`archived`. -/
def status_change_allowed : List String :=
  ["draft", "pending", "sent", "approved", "rejected", "expired"]

/-- The seven quote states of the spec's state machine (§4.3). -/
def quote_states : List String :=
  ["draft", "pending", "sent", "approved", "rejected", "expired", "archived"]

/-- `change_quote_status` on an existing quote: request validation (the
pydantic pattern) fires first, then the permission check (staff or creator),
then the no-op check, and every remaining pair succeeds, stamping the new
status (and `admin_notes` when supplied by staff). The not-found branch is
elided: the verified claims supply the quote itself. -/
def change_quote_status (quote : Quote) (new_status : String) (user : User)
    (admin_notes : Option String) : Except ApiError Quote :=
  if ¬ new_status ∈ status_change_allowed then .error .validationError
  else if ¬ (user.role = "admin" ∨ user.role = "manager" ∨ quote.created_by = user.id) then
    .error .forbidden
  else if quote.status = new_status then .error .noOpTransition
  else
    let q := { quote with status := new_status }
    if admin_notes.isSome ∧ (user.role = "admin" ∨ user.role = "manager") then
      .ok { q with admin_notes := admin_notes }
    else .ok q

/-! ## Discount engine (`apply_bulk_discount`) -/

/-- `BulkDiscountRequest` (pydantic validates the type pattern and
`discount_value > 0`). `apply_to_items` is declared `Optional[List[str]]` in
the source — its elements are strings, not integers. -/
structure BulkDiscountRequest where
  discount_type : String
  discount_value : ℚ
  apply_to_items : Option (List String) := none
  deriving Repr, DecidableEq

/-- One iteration of the discount loop at index `i`: out-of-range indices
are skipped (`continue`), as are items with a falsy price (`None` or `0`);
otherwise the item's current price is discounted, `original_price` is set to
that current price, `discount_applied` to the discount amount, and the
running total gets `discount * quantity`. -/
def discount_step (dtype : String) (v : ℚ) (st : List QuoteItem × ℚ) (i : Nat) :
    List QuoteItem × ℚ :=
  match st.1[i]? with
  | none => st
  | some item =>
    let p := item.unit_price.getD 0
    if p = 0 then st
    else
      let dnp : ℚ × ℚ :=
        if dtype = "percentage" then
          let d := p * (v / 100)
          (d, max 0 (p - d))
        else
          let np := max 0 (p - v)
          (p - np, np)
      (st.1.set i
        { item with
          unit_price := some dnp.2
          original_price := some p
          discount_applied := some dnp.1 },
       st.2 + dnp.1 * (item.quantity : ℚ))

/-- Effect of a single discount pass on one item (used to characterize the
loop over all indices): the discounted item, or the item unchanged when it
has no usable price. -/
def discount_item (dtype : String) (v : ℚ) (item : QuoteItem) : QuoteItem :=
  let p := item.unit_price.getD 0
  if p = 0 then item
  else
    let dnp : ℚ × ℚ :=
      if dtype = "percentage" then
        let d := p * (v / 100)
        (d, max 0 (p - d))
      else
        let np := max 0 (p - v)
        (p - np, np)
    { item with
      unit_price := some dnp.2
      original_price := some p
      discount_applied := some dnp.1 }

/-- The contribution of one item to `total_discount` in a single pass. -/
def item_discount_amt (dtype : String) (v : ℚ) (item : QuoteItem) : ℚ :=
  let p := item.unit_price.getD 0
  if p = 0 then 0
  else
    (if dtype = "percentage" then p * (v / 100) else p - max 0 (p - v)) *
      (item.quantity : ℚ)

/-- `apply_bulk_discount` (admin/manager only): validates, then resolves the
targets with `apply_to_items or list(range(len(items)))`. A falsy
`apply_to_items` (`None` or the empty list) selects every index, integers
from `range`, and the loop discounts each priced item, recomputing
`total_estimate` from the mutated items. A NON-empty `apply_to_items`,
however, is a list of strings, and the loop's very first
`if i >= len(items)` comparison raises `TypeError` (str vs int); the
handler's outer `except` converts that into the generic HTTP 500 before any
item or the stored quote is touched — so every targeted request fails. -/
def apply_bulk_discount (quote : Quote) (req : BulkDiscountRequest) (user : User) :
    Except ApiError (Quote × ℚ) :=
  if ¬ (user.role = "admin" ∨ user.role = "manager") then .error .forbidden
  else if ¬ (req.discount_type = "percentage" ∨ req.discount_type = "fixed_amount") then
    .error .validationError
  else if ¬ 0 < req.discount_value then .error .validationError
  else if quote.items.isEmpty then .error .noItems
  else
    let r := (List.range quote.items.length).foldl
      (discount_step req.discount_type req.discount_value) (quote.items, 0)
    let q' : Quote :=
      { quote with items := r.1, total_estimate := calculate_quote_total r.1 }
    match req.apply_to_items with
    | some l => if l.isEmpty then .ok (q', r.2) else .error .internalError
    | none => .ok (q', r.2)

/-! ## Quote store, single delete and bulk actions -/

/-- The persistent quote collection, together with an oracle naming the ids
on which a write (`update_one` / `delete_one`) raises an unexpected error —
used to verify the bulk coordinator's per-item error isolation. -/
structure QuoteStore where
  quotes : List Quote
  failing : List String := []
  deriving Repr, DecidableEq

def store_find (s : QuoteStore) (qid : String) : Option Quote :=
  s.quotes.find? (fun q => q.id = qid)

/-- `update_one({"_id": qid}, {"$set": {status, admin_notes}})`. -/
def store_set_status (s : QuoteStore) (qid : String) (st : String)
    (an : Option String) : QuoteStore :=
  { s with
    quotes := s.quotes.map fun q =>
      if q.id = qid then { q with status := st, admin_notes := an } else q }

/-- `delete_one({"_id": qid})` (document ids are unique). -/
def store_delete (s : QuoteStore) (qid : String) : QuoteStore :=
  { s with quotes := s.quotes.filter (fun q => q.id ≠ qid) }

/-- `delete_quote` endpoint (admin/manager only): deletes the document with
no check on its status; a zero deleted count is reported as not found. -/
def delete_quote (s : QuoteStore) (qid : String) (user : User) :
    Except ApiError QuoteStore :=
  if ¬ (user.role = "admin" ∨ user.role = "manager") then .error .forbidden
  else
    match store_find s qid with
    | none => .error .notFound
    | some _ => .ok (store_delete s qid)

/-- An entry of the bulk action's `processed_quotes` list. -/
structure ProcessedEntry where
  quote_id : String
  action : String
  old_status : String
  new_status : String
  deriving Repr, DecidableEq

/-- An entry of the bulk action's `failed_quotes` list. -/
structure FailedEntry where
  quote_id : String
  reason : String
  deriving Repr, DecidableEq

/-- Result of a bulk action: the store after processing plus the two
always-returned lists. -/
structure BulkResult where
  store : QuoteStore
  processed : List ProcessedEntry
  failed : List FailedEntry
  deriving Repr, DecidableEq

/-- The body of the per-quote `try` in `bulk_quote_action`, for one id: a
missing quote fails with "Quote not found"; `approve`/`reject` update the
status (an id on which the write raises yields the generic per-item
"Processing error" of the `except` handler, leaving the store unchanged);
`delete` first rejects non-draft quotes, then deletes; `archive` sets the
status to `archived` unconditionally. An action string outside the four
validated ones matches no branch and yields no entry (`none`) — unreachable
behind request validation. -/
def bulk_step (action : String) (notes : Option String) (s : QuoteStore)
    (qid : String) : QuoteStore × Option (ProcessedEntry ⊕ FailedEntry) :=
  match store_find s qid with
  | none => (s, some (.inr ⟨qid, "Quote not found"⟩))
  | some quote =>
    let old := quote.status
    if action = "approve" ∨ action = "reject" then
      let ns := if action = "approve" then "approved" else "rejected"
      if qid ∈ s.failing then (s, some (.inr ⟨qid, "Processing error"⟩))
      else (store_set_status s qid ns notes, some (.inl ⟨qid, action, old, ns⟩))
    else if action = "delete" then
      if quote.status ≠ "draft" then
        (s, some (.inr ⟨qid, "Can only delete draft quotes"⟩))
      else if qid ∈ s.failing then (s, some (.inr ⟨qid, "Processing error"⟩))
      else (store_delete s qid, some (.inl ⟨qid, "deleted", old, "deleted"⟩))
    else if action = "archive" then
      if qid ∈ s.failing then (s, some (.inr ⟨qid, "Processing error"⟩))
      else (store_set_status s qid "archived" notes,
            some (.inl ⟨qid, "archived", old, "archived"⟩))
    else (s, none)

/-- The loop of `bulk_quote_action` over the requested ids, in input order,
threading the store and appending each outcome to the matching list. -/
def bulk_run (action : String) (notes : Option String) (ids : List String)
    (s : QuoteStore) : BulkResult :=
  match ids with
  | [] => ⟨s, [], []⟩
  | qid :: rest =>
    let step := bulk_step action notes s qid
    let r := bulk_run action notes rest step.1
    match step.2 with
    | some (.inl p) => ⟨r.store, p :: r.processed, r.failed⟩
    | some (.inr f) => ⟨r.store, r.processed, f :: r.failed⟩
    | none => r

/-- The actions accepted by `BulkQuoteAction`'s pydantic pattern. -/
def bulk_actions : List String := ["approve", "reject", "archive", "delete"]

/-- `bulk_quote_action` endpoint: staff only, validated action and batch
size 1..50, then the best-effort per-id loop. -/
def bulk_quote_action (action : String) (notes : Option String)
    (ids : List String) (user : User) (s : QuoteStore) :
    Except ApiError BulkResult :=
  if ¬ (user.role = "admin" ∨ user.role = "manager") then .error .forbidden
  else if ¬ action ∈ bulk_actions then .error .validationError
  else if ids.length = 0 ∨ ids.length > 50 then .error .validationError
  else .ok (bulk_run action notes ids s)

/-! ## Concrete sample data (used to instantiate the verified properties) -/

def u_admin : User := { id := "u-admin", role := "admin" }

def u_manager : User := { id := "u-mgr", role := "manager" }

def u_creator : User := { id := "u1", role := "customer", company_id := some "acme" }

def u_peer : User := { id := "u2", role := "customer", company_id := some "acme" }

def u_lone : User := { id := "u3", role := "customer" }

def u_custom : User := { id := "u4", role := "customer", permissions := ["quotes:delete"] }

def db_shared : Db :=
  ⟨[⟨"acme", some true⟩], [⟨"u1", some "acme"⟩, ⟨"u2", some "acme"⟩]⟩

def db_closed : Db :=
  ⟨[⟨"acme", some false⟩], [⟨"u1", some "acme"⟩, ⟨"u2", some "acme"⟩]⟩

def db_nofield : Db :=
  ⟨[⟨"acme", none⟩], [⟨"u1", some "acme"⟩, ⟨"u2", some "acme"⟩]⟩

def db_empty : Db := ⟨[], []⟩

def db_nocreator : Db := ⟨[⟨"acme", none⟩], []⟩

def item_w : QuoteItem :=
  { product_id := "p1", product_name := "Widget", quantity := 1, unit_price := some 1000 }

def item_g : QuoteItem :=
  { product_id := "p2", product_name := "Gadget", quantity := 3, unit_price := none }

def item_s : QuoteItem :=
  { product_id := "p3", product_name := "Sprocket", quantity := 2, unit_price := some 10 }

def q_draft : Quote :=
  { id := "q1", items := [item_w], status := "draft", total_estimate := some 1000,
    notes := none, admin_notes := none, created_by := "u1" }

def q_sent : Quote :=
  { id := "q2", items := [item_s], status := "sent", total_estimate := some 20,
    notes := none, admin_notes := none, created_by := "u1" }

def store0 : QuoteStore := { quotes := [q_draft, q_sent] }

def store_fail : QuoteStore := { quotes := [q_draft, q_sent], failing := ["q1"] }

def store_sent : QuoteStore := { quotes := [q_sent] }

/-- The `QuoteUpdate` sent by a staff member that both replaces the item
list and overrides `total_estimate`. -/
def upd_override : QuoteUpdate := { items := some [item_s], total_estimate := some 999 }

/-- An item-only update with no total override. -/
def upd_items : QuoteUpdate := { items := some [item_s] }

/-- The quote produced by `update_quote q_draft upd_items u_creator`. -/
def q_upd_result : Quote :=
  { id := "q1", items := [item_s], status := "draft", total_estimate := some 20,
    notes := none, admin_notes := none, created_by := "u1" }

/-- `item_w` after one 10% discount. -/
def item_w_d1 : QuoteItem :=
  { product_id := "p1", product_name := "Widget", quantity := 1,
    unit_price := some 900, original_price := some 1000,
    discount_applied := some 100 }

/-- `q_draft` after one 10% bulk discount. -/
def q_disc_result : Quote :=
  { id := "q1", items := [item_w_d1], status := "draft",
    total_estimate := some 900, notes := none, admin_notes := none,
    created_by := "u1" }

def disc_p10 : BulkDiscountRequest :=
  { discount_type := "percentage", discount_value := 10 }

def disc_p200 : BulkDiscountRequest :=
  { discount_type := "percentage", discount_value := 200 }

def disc_f15 : BulkDiscountRequest :=
  { discount_type := "fixed_amount", discount_value := 15 }

/-- `item_w` after a 200% percentage discount: the price floors at 0 while
the recorded discount is the full `price * value/100`. -/
def item_w_d200 : QuoteItem :=
  { product_id := "p1", product_name := "Widget", quantity := 1,
    unit_price := some 0, original_price := some 1000,
    discount_applied := some 2000 }

def q_disc200_result : Quote :=
  { id := "q1", items := [item_w_d200], status := "draft",
    total_estimate := some 0, notes := none, admin_notes := none,
    created_by := "u1" }

/-- `item_w` after two successive 10% discounts: `original_price` now holds
the intermediate 900, not the original 1000. -/
def item_w_d2 : QuoteItem :=
  { product_id := "p1", product_name := "Widget", quantity := 1,
    unit_price := some 810, original_price := some 900,
    discount_applied := some 90 }

def q_disc_result2 : Quote :=
  { id := "q1", items := [item_w_d2], status := "draft",
    total_estimate := some 810, notes := none, admin_notes := none,
    created_by := "u1" }

/-! ## Helper lemmas -/

theorem calc_foldl (items : List QuoteItem) : ∀ (acc : ℚ) (b : Bool),
    items.foldl
      (fun (acc : ℚ × Bool) item =>
        match item.unit_price with
        | some price => (acc.1 + price * (item.quantity : ℚ), true)
        | none => acc)
      (acc, b) =
    (acc + priced_sum items, b || items.any fun i => i.unit_price.isSome) := by
  induction items with
  | nil => intro acc b; simp [priced_sum]
  | cons it rest ih =>
    intro acc b
    cases h : it.unit_price with
    | none =>
      simp only [List.foldl_cons, h, ih]
      refine Prod.ext ?_ ?_
      · simp [priced_sum, List.filter_cons, h]
      · simp [h]
    | some price =>
      simp only [List.foldl_cons, h, ih]
      refine Prod.ext ?_ ?_
      · simp [priced_sum, List.filter_cons, h]
        ring
      · simp [h]

theorem calculate_quote_total_eq (items : List QuoteItem) :
    calculate_quote_total items =
      if items.any (fun i => i.unit_price.isSome) then some (priced_sum items)
      else none := by
  unfold calculate_quote_total
  rw [calc_foldl]
  simp

theorem calculate_eq_total_spec (items : List QuoteItem) :
    calculate_quote_total items = total_spec items := by
  rw [calculate_quote_total_eq, total_spec]
  by_cases h : ∀ i ∈ items, i.unit_price = none
  · have hany : (items.any fun i => i.unit_price.isSome) = false := by
      simp only [List.any_eq_false]
      intro i hi
      simp [h i hi]
    rw [if_pos h, hany]
    simp
  · have hany : (items.any fun i => i.unit_price.isSome) = true := by
      push_neg at h
      obtain ⟨i, hi, hne⟩ := h
      exact List.any_eq_true.2 ⟨i, hi, by simpa [Option.isSome_iff_ne_none] using hne⟩
    rw [if_neg h, hany]
    simp

theorem getElem?_append_cons {α : Type} (pre : List α) (x : α) (post : List α) :
    (pre ++ x :: post)[pre.length]? = some x := by
  induction pre with
  | nil => simp
  | cons a l ih => simpa using ih

theorem set_append_cons {α : Type} (pre : List α) (x y : α) (post : List α) :
    (pre ++ x :: post).set pre.length y = pre ++ y :: post := by
  induction pre with
  | nil => rfl
  | cons a l ih => simp [ih]

/-- A request with a non-empty target list fails with the generic 500: its
string indices make the loop's first `i >= len(items)` comparison raise
`TypeError`, and nothing is mutated. -/
theorem apply_targeted_raises (quote : Quote) (req : BulkDiscountRequest)
    (user : User) (l : List String)
    (hstaff : user.role = "admin" ∨ user.role = "manager")
    (ht : req.discount_type = "percentage" ∨ req.discount_type = "fixed_amount")
    (hv : 0 < req.discount_value)
    (hne : ¬ quote.items.isEmpty = true)
    (hl : req.apply_to_items = some l) (hlne : l ≠ []) :
    apply_bulk_discount quote req user = .error .internalError := by
  have hle : l.isEmpty = false := by
    cases l with
    | nil => exact absurd rfl hlne
    | cons a as => rfl
  simp only [apply_bulk_discount]
  rw [if_neg (not_not_intro hstaff), if_neg (not_not_intro ht),
    if_neg (not_not_intro hv), if_neg hne, hl]
  simp [hle]

/-- One loop iteration at position `pre.length` acts exactly as
`discount_item` / `item_discount_amt` on the item at that position. -/
theorem discount_step_at (t : String) (v : ℚ) (pre : List QuoteItem)
    (it : QuoteItem) (post : List QuoteItem) (acc : ℚ) :
    discount_step t v (pre ++ it :: post, acc) pre.length =
      (pre ++ discount_item t v it :: post, acc + item_discount_amt t v it) := by
  by_cases hz : it.unit_price.getD 0 = 0
  · have h1 : discount_item t v it = it := by simp [discount_item, hz]
    have h2 : item_discount_amt t v it = 0 := by simp [item_discount_amt, hz]
    rw [h1, h2, add_zero]
    simp only [discount_step, getElem?_append_cons]
    rw [if_pos hz]
  · simp only [discount_step, getElem?_append_cons, discount_item, item_discount_amt]
    rw [if_neg hz, if_neg hz, if_neg hz, set_append_cons]
    by_cases htp : t = "percentage" <;> simp [htp]

/-- The discount loop over all indices maps `discount_item` over the items
and accumulates the `item_discount_amt` contributions. -/
theorem discount_foldl_range (t : String) (v : ℚ) :
    ∀ (rest pre : List QuoteItem) (acc : ℚ),
      List.foldl (discount_step t v) (pre ++ rest, acc)
        (List.range' pre.length rest.length) =
      (pre ++ rest.map (discount_item t v),
        acc + (rest.map (item_discount_amt t v)).sum) := by
  intro rest
  induction rest with
  | nil => intro pre acc; simp [List.range']
  | cons it rs ih =>
    intro pre acc
    rw [List.length_cons, List.range'_succ, List.foldl_cons, discount_step_at]
    have heq : pre ++ discount_item t v it :: rs =
        (pre ++ [discount_item t v it]) ++ rs := by simp
    have hlen : pre.length + 1 = (pre ++ [discount_item t v it]).length := by simp
    rw [heq, hlen, ih]
    simp [add_assoc]

/-- `apply_bulk_discount` with no target list discounts every item. -/
theorem apply_all (quote : Quote) (user : User) (t : String) (v : ℚ)
    (hstaff : user.role = "admin" ∨ user.role = "manager")
    (ht : t = "percentage" ∨ t = "fixed_amount")
    (hv : 0 < v)
    (hne : quote.items ≠ []) :
    apply_bulk_discount quote ⟨t, v, none⟩ user =
      .ok
        ({ quote with
            items := quote.items.map (discount_item t v),
            total_estimate :=
              calculate_quote_total (quote.items.map (discount_item t v)) },
          (quote.items.map (item_discount_amt t v)).sum) := by
  have hne' : ¬ quote.items.isEmpty = true := by
    simp [List.isEmpty_iff, hne]
  simp only [apply_bulk_discount]
  rw [if_neg (not_not_intro hstaff), if_neg (not_not_intro ht),
    if_neg (not_not_intro hv), if_neg hne']
  have hfold := discount_foldl_range t v quote.items [] 0
  simp only [List.nil_append, List.length_nil, zero_add] at hfold
  rw [List.range_eq_range', hfold]

/-! ### Concrete evaluations (rational arithmetic via norm_num) -/

theorem calc_item_s : calculate_quote_total [item_s] = some 20 := by
  rw [calculate_quote_total_eq]
  norm_num [priced_sum, item_s]

theorem update_concrete :
    update_quote q_draft upd_items u_creator = .ok q_upd_result := by
  have hval : ¬¬ (∀ s ∈ upd_items.status, s ∈ update_status_allowed) :=
    not_not_intro (by simp [upd_items])
  have hperm : ¬ (q_draft.created_by ≠ u_creator.id ∧ u_creator.role ≠ "admin" ∧
      u_creator.role ≠ "manager") := by simp [q_draft, u_creator]
  unfold update_quote
  rw [if_neg hval, if_neg hperm]
  simp [upd_items, q_draft, u_creator, calc_item_s, q_upd_result]

theorem discount10_concrete :
    apply_bulk_discount q_draft disc_p10 u_admin = .ok (q_disc_result, 100) := by
  unfold apply_bulk_discount
  rw [if_neg (not_not_intro (Or.inl (show u_admin.role = "admin" from rfl))),
    if_neg (not_not_intro (Or.inl (show disc_p10.discount_type = "percentage" from rfl))),
    if_neg (not_not_intro (by norm_num [disc_p10])), if_neg (by simp [q_draft])]
  norm_num [disc_p10, q_draft, item_w, discount_step, List.range_succ,
    max_def, calculate_quote_total_eq, priced_sum, q_disc_result, item_w_d1]

theorem discount200_concrete :
    apply_bulk_discount q_draft disc_p200 u_admin = .ok (q_disc200_result, 2000) := by
  unfold apply_bulk_discount
  rw [if_neg (not_not_intro (Or.inl (show u_admin.role = "admin" from rfl))),
    if_neg (not_not_intro (Or.inl (show disc_p200.discount_type = "percentage" from rfl))),
    if_neg (not_not_intro (by norm_num [disc_p200])), if_neg (by simp [q_draft])]
  norm_num [disc_p200, q_draft, item_w, discount_step, List.range_succ,
    max_def, calculate_quote_total_eq, priced_sum, q_disc200_result, item_w_d200]

theorem discount10_again_concrete :
    apply_bulk_discount q_disc_result disc_p10 u_admin =
      .ok (q_disc_result2, 90) := by
  unfold apply_bulk_discount
  rw [if_neg (not_not_intro (Or.inl (show u_admin.role = "admin" from rfl))),
    if_neg (not_not_intro (Or.inl (show disc_p10.discount_type = "percentage" from rfl))),
    if_neg (not_not_intro (by norm_num [disc_p10])),
    if_neg (by simp [q_disc_result])]
  norm_num [disc_p10, q_disc_result, item_w_d1, discount_step, List.range_succ,
    max_def, calculate_quote_total_eq, priced_sum, q_disc_result2, item_w_d2]

/-! ## Claim C1 -/

/-- Claim C1: `can_access_quote` grants access to `admin`/`manager` and to
the creator unconditionally; otherwise, for an identity with a company, a
present `quote_sharing_enabled` field must be `true` and the looked-up
creator must share the company — any failed lookup (company or creator
absent) resolves to `false`, as does every remaining case. -/
theorem claim_C1_can_access_quote (quote : Quote) (user : User) (db : Db) :
    ((user.role = "admin" ∨ user.role = "manager") →
      can_access_quote quote user db = true)
    ∧ (quote.created_by = user.id → can_access_quote quote user db = true)
    ∧ (¬ (user.role = "admin" ∨ user.role = "manager") →
        quote.created_by ≠ user.id → user.company_id = none →
        can_access_quote quote user db = false)
    ∧ (∀ cid, ¬ (user.role = "admin" ∨ user.role = "manager") →
        quote.created_by ≠ user.id → user.company_id = some cid →
        (find_company db cid = none → can_access_quote quote user db = false)
        ∧ (∀ c b, find_company db cid = some c →
            c.quote_sharing_enabled = some b →
            (can_access_quote quote user db = true ↔
              b = true ∧ ∃ creator, find_user db quote.created_by = some creator ∧
                creator.company_id = some cid))) := by
  refine ⟨?_, ?_, ?_, ?_⟩
  · intro h; simp [can_access_quote, h]
  · intro h
    by_cases hs : user.role = "admin" ∨ user.role = "manager" <;>
      simp [can_access_quote, h, hs]
  · intro hs hc hnone
    simp [can_access_quote, hs, hc, hnone]
  · intro cid hs hc hcid
    constructor
    · intro hfc
      simp [can_access_quote, hs, hc, hcid, hfc]
    · intro c b hfc hqse
      cases hb : b with
      | false =>
        simp only [can_access_quote, hs, hc, hcid, hfc]
        subst hb
        simp only [hqse, Option.getD_some]
        cases hfu : find_user db quote.created_by <;> simp [hfu]
      | true =>
        subst hb
        simp only [can_access_quote, hs, hc, hcid, hfc, hqse, Option.getD_some,
          if_true, true_and]
        cases hfu : find_user db quote.created_by with
        | none => simp
        | some creator =>
          simp only [Option.some.injEq]
          constructor
          · intro h
            exact ⟨creator, rfl, by simpa using h⟩
          · rintro ⟨cr, hcr, hcc⟩
            subst hcr
            simpa using hcc

/-- Witness for C1: each clause instantiated on concrete data — a manager,
the creator, a user with no company, an identity whose company lookup fails,
and a same-company peer for whom access tracks the sharing flag. -/
theorem claim_C1_witness :
    can_access_quote q_draft u_manager db_shared = true
    ∧ can_access_quote q_draft u_creator db_empty = true
    ∧ can_access_quote q_draft u_lone db_shared = false
    ∧ can_access_quote q_draft u_peer db_empty = false
    ∧ can_access_quote q_draft u_peer db_shared = true
    ∧ can_access_quote q_draft u_peer db_closed = false := by
  refine ⟨?_, ?_, ?_, ?_, ?_, ?_⟩
  · exact (claim_C1_can_access_quote q_draft u_manager db_shared).1 (Or.inr rfl)
  · exact (claim_C1_can_access_quote q_draft u_creator db_empty).2.1 rfl
  · exact (claim_C1_can_access_quote q_draft u_lone db_shared).2.2.1
      (by decide) (by decide) rfl
  · exact ((claim_C1_can_access_quote q_draft u_peer db_empty).2.2.2 "acme"
      (by decide) (by decide) rfl).1 rfl
  · exact (((claim_C1_can_access_quote q_draft u_peer db_shared).2.2.2 "acme"
      (by decide) (by decide) rfl).2 ⟨"acme", some true⟩ true rfl rfl).2
      ⟨rfl, ⟨"u1", some "acme"⟩, rfl, rfl⟩
  · have h := (((claim_C1_can_access_quote q_draft u_peer db_closed).2.2.2 "acme"
      (by decide) (by decide) rfl).2 ⟨"acme", some false⟩ false rfl rfl)
    cases hv : can_access_quote q_draft u_peer db_closed with
    | false => rfl
    | true => exact absurd (h.1 hv).1 (by decide)

/-! ## Claim C10 -/

/-- Claim C10: when the company document exists but carries no
`quote_sharing_enabled` key, `can_access_quote` treats sharing as enabled
(`dict.get` default `True`) and grants a same-company peer access; only an
absent company or absent creator defaults closed. -/
theorem claim_C10_default_open (quote : Quote) (user : User) (db : Db) (cid : String) :
    ¬ (user.role = "admin" ∨ user.role = "manager") →
    quote.created_by ≠ user.id →
    user.company_id = some cid →
    ((∀ c, find_company db cid = some c → c.quote_sharing_enabled = none →
        (∀ creator, find_user db quote.created_by = some creator →
          creator.company_id = some cid →
          can_access_quote quote user db = true)
        ∧ (find_user db quote.created_by = none →
            can_access_quote quote user db = false))
      ∧ (find_company db cid = none → can_access_quote quote user db = false)) := by
  intro hs hc hcid
  constructor
  · intro c hfc hnone
    constructor
    · intro creator hfu hcc
      simp [can_access_quote, hs, hc, hcid, hfc, hnone, hfu, hcc]
    · intro hfu
      simp [can_access_quote, hs, hc, hcid, hfc, hnone, hfu]
  · intro hfc
    simp [can_access_quote, hs, hc, hcid, hfc]

/-- Witness for C10: the peer `u2` may read the creator's quote when the
company document lacks the sharing key, while an absent company or absent
creator still denies. -/
theorem claim_C10_witness :
    can_access_quote q_draft u_peer db_nofield = true
    ∧ can_access_quote q_draft u_peer db_empty = false
    ∧ can_access_quote q_draft u_peer db_nocreator = false := by
  refine ⟨?_, ?_, ?_⟩
  · exact ((claim_C10_default_open q_draft u_peer db_nofield "acme"
      (by decide) (by decide) rfl).1 ⟨"acme", none⟩ rfl rfl).1
      ⟨"u1", some "acme"⟩ rfl rfl
  · exact (claim_C10_default_open q_draft u_peer db_empty "acme"
      (by decide) (by decide) rfl).2 rfl
  · exact ((claim_C10_default_open q_draft u_peer db_nocreator "acme"
      (by decide) (by decide) rfl).1 ⟨"acme", none⟩ rfl rfl).2 rfl

/-! ## Claim C7 -/

/-- Claim C7: `get_user_permissions` returns exactly the §4.1 table entry
for each of the five roles (in particular `customer` lacks `quotes:update`),
and the empty set — never an error — for any unknown role. -/
theorem claim_C7_permissions :
    get_user_permissions "admin" =
      [ "users:create", "users:read", "users:update", "users:delete",
        "products:create", "products:read", "products:update", "products:delete",
        "quotes:create", "quotes:read", "quotes:update", "quotes:delete",
        "analytics:read", "system:admin" ]
    ∧ get_user_permissions "manager" =
      [ "users:read", "users:update", "products:read", "products:update",
        "quotes:create", "quotes:read", "quotes:update", "analytics:read" ]
    ∧ get_user_permissions "sales_rep" =
      [ "products:read", "quotes:create", "quotes:read", "quotes:update",
        "customers:read" ]
    ∧ get_user_permissions "customer" =
      [ "products:read", "quotes:create", "quotes:read" ]
    ∧ get_user_permissions "company_admin" =
      [ "products:read", "quotes:create", "quotes:read", "quotes:update",
        "company:manage" ]
    ∧ "quotes:update" ∉ get_user_permissions "customer"
    ∧ ∀ r, r ∉ ["admin", "manager", "sales_rep", "customer", "company_admin"] →
        get_user_permissions r = [] := by
  refine ⟨rfl, rfl, rfl, rfl, rfl, by decide, ?_⟩
  intro r hr
  simp only [List.mem_cons, List.not_mem_nil, or_false, not_or] at hr
  obtain ⟨h1, h2, h3, h4, h5⟩ := hr
  simp [get_user_permissions, dict_get, ROLE_PERMISSIONS, List.find?,
    Ne.symm h1, Ne.symm h2, Ne.symm h3, Ne.symm h4, Ne.symm h5]

/-- Witness for C7: the unknown-role clause instantiated at `"ceo"`. -/
theorem claim_C7_witness : get_user_permissions "ceo" = [] :=
  claim_C7_permissions.2.2.2.2.2.2 "ceo" (by decide)

/-! ## Claim C8 -/

/-- Claim C8 is violated by the code: `permission_checker` computes the
effective permissions as the role table entry extended with the identity's
custom overrides (the first conjunct, as the claim states), but Python's
`list.extend` mutates the very list object stored in `ROLE_PERMISSIONS`, so
after checking a customer with custom permission `quotes:delete` the global
table's `customer` entry now contains `quotes:delete` and a subsequent
`get_user_permissions("customer")` no longer returns the §4.1 entry. -/
theorem claim_C8_table_mutation :
    (permission_checker ROLE_PERMISSIONS u_custom).1 =
      get_user_permissions "customer" ++ ["quotes:delete"]
    ∧ dict_get (permission_checker ROLE_PERMISSIONS u_custom).2 "customer" =
      [ "products:read", "quotes:create", "quotes:read", "quotes:delete" ]
    ∧ dict_get (permission_checker ROLE_PERMISSIONS u_custom).2 "customer" ≠
      get_user_permissions "customer" := by
  refine ⟨rfl, rfl, by decide⟩

/-! ## Claim C2 -/

/-- Claim C2 as stated is false: `archived` is one of the seven states, the
requestor is the quote's creator and the pair (`draft`, `archived`) is a
genuine change, yet the request is rejected by `StatusChangeRequest`'s
pydantic pattern (which omits `archived`) instead of succeeding. -/
theorem claim_C2_counterexample :
    change_quote_status q_draft "archived" u_creator none =
      .error .validationError
    ∧ "archived" ∈ quote_states
    ∧ q_draft.status ∈ quote_states
    ∧ q_draft.created_by = u_creator.id
    ∧ "archived" ≠ q_draft.status := by
  refine ⟨rfl, by decide, by decide, rfl, by decide⟩

/-- Claim C2, amended: for a requested status among the six the request
pattern accepts (`draft`, `pending`, `sent`, `approved`, `rejected`,
`expired`), the transition fails with `Forbidden` iff the requestor is
neither staff nor the creator, fails with `NoOpTransition` iff the new
status equals the current one, and succeeds on every other pair; a requested
status outside those six — `archived` included — is rejected by input
validation. -/
theorem claim_C2_transition (quote : Quote) (user : User) (ns : String)
    (an : Option String) :
    (ns ∈ status_change_allowed →
      ((change_quote_status quote ns user an = .error .forbidden ↔
          ¬ (user.role = "admin" ∨ user.role = "manager" ∨
              quote.created_by = user.id))
        ∧ ((user.role = "admin" ∨ user.role = "manager" ∨
              quote.created_by = user.id) →
            (change_quote_status quote ns user an = .error .noOpTransition ↔
              ns = quote.status))
        ∧ ((user.role = "admin" ∨ user.role = "manager" ∨
              quote.created_by = user.id) →
            ns ≠ quote.status →
            ∃ q', change_quote_status quote ns user an = .ok q' ∧
              q'.status = ns)))
    ∧ (ns ∉ status_change_allowed →
        change_quote_status quote ns user an = .error .validationError) := by
  constructor
  · intro hns
    have h1 : ¬¬ ns ∈ status_change_allowed := not_not_intro hns
    refine ⟨?_, ?_, ?_⟩
    · by_cases hauth : user.role = "admin" ∨ user.role = "manager" ∨
        quote.created_by = user.id
      · refine iff_of_false ?_ (not_not_intro hauth)
        simp only [change_quote_status]
        rw [if_neg h1, if_neg (not_not_intro hauth)]
        by_cases hnoop : quote.status = ns
        · rw [if_pos hnoop]; simp
        · rw [if_neg hnoop]
          by_cases han : an.isSome ∧ (user.role = "admin" ∨ user.role = "manager")
          · rw [if_pos han]; simp
          · rw [if_neg han]; simp
      · refine iff_of_true ?_ hauth
        simp only [change_quote_status]
        rw [if_neg h1, if_pos hauth]
    · intro hauth
      by_cases hnoop : quote.status = ns
      · refine iff_of_true ?_ hnoop.symm
        simp only [change_quote_status]
        rw [if_neg h1, if_neg (not_not_intro hauth), if_pos hnoop]
      · refine iff_of_false ?_ (fun h => hnoop h.symm)
        simp only [change_quote_status]
        rw [if_neg h1, if_neg (not_not_intro hauth), if_neg hnoop]
        by_cases han : an.isSome ∧ (user.role = "admin" ∨ user.role = "manager")
        · rw [if_pos han]; simp
        · rw [if_neg han]; simp
    · intro hauth hne
      have hnoop : ¬ quote.status = ns := fun h => hne h.symm
      simp only [change_quote_status]
      rw [if_neg h1, if_neg (not_not_intro hauth), if_neg hnoop]
      by_cases han : an.isSome ∧ (user.role = "admin" ∨ user.role = "manager")
      · rw [if_pos han]; exact ⟨_, rfl, rfl⟩
      · rw [if_neg han]; exact ⟨_, rfl, rfl⟩
  · intro hns
    simp only [change_quote_status]
    rw [if_pos hns]

/-- Witness for the amended C2: a creator's `draft → sent` succeeds, a
stranger is forbidden, a no-op `sent → sent` is rejected, and an `archived`
request fails validation. -/
theorem claim_C2_witness :
    (∃ q', change_quote_status q_draft "sent" u_creator none = .ok q' ∧
      q'.status = "sent")
    ∧ change_quote_status q_draft "sent" u_lone none = .error .forbidden
    ∧ change_quote_status q_sent "sent" u_admin none = .error .noOpTransition
    ∧ change_quote_status q_sent "archived" u_admin none =
        .error .validationError := by
  refine ⟨?_, ?_, ?_, ?_⟩
  · exact (claim_C2_transition q_draft u_creator "sent" none).1 (by decide)
      |>.2.2 (Or.inr (Or.inr rfl)) (by decide)
  · exact ((claim_C2_transition q_draft u_lone "sent" none).1 (by decide)).1.2
      (by decide)
  · exact (((claim_C2_transition q_sent u_admin "sent" none).1 (by decide)).2.1
      (Or.inl rfl)).2 rfl
  · exact (claim_C2_transition q_sent u_admin "archived" none).2 (by decide)

/-! ## Claim C3 -/

/-- Claim C3 as stated is false: a staff update that both replaces the item
list and supplies a `total_estimate` override stores the override (the
override is applied after the recomputation and wins), so after this item
update the stored total `999` differs from the priced sum `20` of the new
items even though an item is priced. -/
theorem claim_C3_counterexample :
    update_quote q_draft upd_override u_admin = .ok
      { id := "q1", items := [item_s], status := "draft",
        total_estimate := some 999, notes := none, admin_notes := none,
        created_by := "u1" }
    ∧ priced_sum [item_s] = 20
    ∧ some (999 : ℚ) ≠ some (priced_sum [item_s])
    ∧ ¬ (∀ i ∈ [item_s], i.unit_price = none) := by
  have h3 : priced_sum [item_s] = 20 := by
    norm_num [priced_sum, item_s]
  refine ⟨rfl, h3, ?_, by decide⟩
  rw [h3]
  intro h
  exact absurd (Option.some.inj h) (by norm_num)

/-- Claim C3, amended: `total_estimate` equals the priced-item sum (and is
null iff no item is priced) after `create_quote`, after an item update
through `update_quote` provided the update does not also carry a staff
`total_estimate` override, and after `apply_bulk_discount`. -/
theorem claim_C3_total_invariant :
    (∀ items : List QuoteItem,
      (total_spec items = none ↔ ∀ i ∈ items, i.unit_price = none)
      ∧ ((∃ i ∈ items, i.unit_price ≠ none) →
          total_spec items = some (priced_sum items)))
    ∧ (∀ (req : QuoteRequest) (user : User) (qid : String),
        (create_quote req user qid).items = req.items
        ∧ (create_quote req user qid).total_estimate = total_spec req.items)
    ∧ (∀ (quote : Quote) (upd : QuoteUpdate) (user : User) (q' : Quote)
        (its : List QuoteItem),
        update_quote quote upd user = .ok q' →
        upd.items = some its → its ≠ [] →
        (¬ (user.role = "admin" ∨ user.role = "manager") ∨
          upd.total_estimate = none) →
        q'.items = its ∧ q'.total_estimate = total_spec its)
    ∧ (∀ (quote : Quote) (req : BulkDiscountRequest) (user : User) (q' : Quote)
        (td : ℚ),
        apply_bulk_discount quote req user = .ok (q', td) →
        q'.total_estimate = total_spec q'.items) := by
  refine ⟨?_, ?_, ?_, ?_⟩
  · intro items
    constructor
    · unfold total_spec
      by_cases h : ∀ i ∈ items, i.unit_price = none
      · rw [if_pos h]; exact iff_of_true rfl h
      · rw [if_neg h]; exact iff_of_false (by simp) h
    · rintro ⟨i, hi, hne⟩
      unfold total_spec
      rw [if_neg (fun h => hne (h i hi))]
  · intro req user qid
    exact ⟨rfl, calculate_eq_total_spec req.items⟩
  · intro quote upd user q' its hok hits hne hstaff
    simp only [update_quote] at hok
    by_cases hval : ¬ (∀ s ∈ upd.status, s ∈ update_status_allowed)
    · rw [if_pos hval] at hok; exact absurd hok (by simp)
    · rw [if_neg hval] at hok
      by_cases hperm : quote.created_by ≠ user.id ∧ user.role ≠ "admin" ∧
        user.role ≠ "manager"
      · rw [if_pos hperm] at hok; exact absurd hok (by simp)
      · rw [if_neg hperm] at hok
        rw [hits] at hok
        have hemp : its.isEmpty = false := by
          cases its with
          | nil => exact absurd rfl hne
          | cons a l => rfl
        simp only [hemp, Bool.false_eq_true, if_false] at hok
        have hq' := Except.ok.inj hok
        subst hq'
        rcases hstaff with hstaff | hstaff
        · rw [if_neg hstaff]
          cases upd.status <;> cases upd.notes <;>
            exact ⟨rfl, calculate_eq_total_spec its⟩
        · rw [hstaff]
          by_cases hrole : user.role = "admin" ∨ user.role = "manager"
          · rw [if_pos hrole]
            cases upd.status <;> cases upd.notes <;> cases upd.admin_notes <;>
              exact ⟨rfl, calculate_eq_total_spec its⟩
          · rw [if_neg hrole]
            cases upd.status <;> cases upd.notes <;>
              exact ⟨rfl, calculate_eq_total_spec its⟩
  · intro quote req user q' td hok
    simp only [apply_bulk_discount] at hok
    repeat' split at hok
    all_goals
      first
        | (injection hok with hpair
           injection hpair with hq htd
           rw [← hq]
           exact calculate_eq_total_spec _)
        | exact absurd hok (by simp)

/-- Witness for the amended C3: the invariant instantiated after a concrete
create, a concrete item-only update, and a concrete 10% discount. -/
theorem claim_C3_witness :
    total_spec [item_w] = some (priced_sum [item_w])
    ∧ (create_quote ⟨[item_w, item_g], none⟩ u_creator "q9").total_estimate =
        total_spec [item_w, item_g]
    ∧ (q_upd_result.items = [item_s]
        ∧ q_upd_result.total_estimate = total_spec [item_s])
    ∧ q_disc_result.total_estimate = total_spec q_disc_result.items := by
  refine ⟨?_, ?_, ?_, ?_⟩
  · exact (claim_C3_total_invariant.1 [item_w]).2
      ⟨item_w, List.mem_singleton.mpr rfl, by decide⟩
  · exact (claim_C3_total_invariant.2.1 ⟨[item_w, item_g], none⟩ u_creator "q9").2
  · exact claim_C3_total_invariant.2.2.1 q_draft upd_items u_creator
      q_upd_result [item_s] update_concrete rfl (by simp) (Or.inl (by decide))
  · exact claim_C3_total_invariant.2.2.2 q_draft disc_p10 u_admin
      q_disc_result 100 discount10_concrete

/-! ## Claim C4 -/

/-- Claim C4 as stated is false at `v = 200`: the claim asserts the new
percentage price is `p - p*v/100` and simultaneously never negative, but at
`p = 1000, v = 200` that formula is `-1000` while the code floors the stored
price at `0` (recording `discount_applied = 2000`). -/
theorem claim_C4_counterexample :
    apply_bulk_discount q_draft disc_p200 u_admin = .ok (q_disc200_result, 2000)
    ∧ item_w.unit_price = some 1000
    ∧ item_w_d200.unit_price = some 0
    ∧ (1000 : ℚ) - 1000 * 200 / 100 < 0
    ∧ some ((1000 : ℚ) - 1000 * 200 / 100) ≠ some (0 : ℚ) := by
  refine ⟨discount200_concrete, rfl, rfl, by norm_num, ?_⟩
  intro h
  exact absurd (Option.some.inj h) (by norm_num)

/-- Claim C4, amended: a request naming target items (non-empty
`apply_to_items`) always fails with the generic internal error — its string
indices raise `TypeError` — so discounts are only ever applied by the
all-items path (absent or empty `apply_to_items`). There, on a priced item
`p > 0` with `v > 0`, a percentage discount records discount `p*v/100` and
stores price `max 0 (p - p*v/100)` (equal to `p - p*v/100` whenever
`v ≤ 100`); a fixed discount records `min v p` and stores `p - min v p`;
stored prices are never negative; a 10% discount on 1000.00 gives 900.00
and a further 10% gives 810.00; and `totalDiscount` is the sum over the
items of the per-item discount times its quantity. -/
theorem claim_C4_discount :
    (∀ (quote : Quote) (user : User) (t : String) (v : ℚ) (l : List String),
      user.role = "admin" ∨ user.role = "manager" →
      (t = "percentage" ∨ t = "fixed_amount") → 0 < v → quote.items ≠ [] →
      l ≠ [] →
      apply_bulk_discount quote ⟨t, v, some l⟩ user = .error .internalError)
    ∧ (∀ (quote : Quote) (user : User) (v : ℚ) (i : Nat) (item : QuoteItem) (p : ℚ),
      user.role = "admin" ∨ user.role = "manager" → 0 < v →
      quote.items[i]? = some item → item.unit_price = some p → 0 < p →
      ∃ q', apply_bulk_discount quote ⟨"percentage", v, none⟩ user =
          .ok (q', (quote.items.map (item_discount_amt "percentage" v)).sum)
        ∧ q'.items[i]? = some
            { item with
              unit_price := some (max 0 (p - p * (v / 100))),
              original_price := some p,
              discount_applied := some (p * (v / 100)) }
        ∧ item_discount_amt "percentage" v item =
            p * (v / 100) * (item.quantity : ℚ)
        ∧ 0 ≤ max 0 (p - p * (v / 100))
        ∧ (v ≤ 100 → max 0 (p - p * (v / 100)) = p - p * (v / 100)))
    ∧ (∀ (quote : Quote) (user : User) (v : ℚ) (i : Nat) (item : QuoteItem) (p : ℚ),
      user.role = "admin" ∨ user.role = "manager" → 0 < v →
      quote.items[i]? = some item → item.unit_price = some p → 0 < p →
      ∃ q', apply_bulk_discount quote ⟨"fixed_amount", v, none⟩ user =
          .ok (q', (quote.items.map (item_discount_amt "fixed_amount" v)).sum)
        ∧ q'.items[i]? = some
            { item with
              unit_price := some (p - min v p),
              original_price := some p,
              discount_applied := some (min v p) }
        ∧ item_discount_amt "fixed_amount" v item =
            min v p * (item.quantity : ℚ)
        ∧ 0 ≤ p - min v p)
    ∧ (apply_bulk_discount q_draft disc_p10 u_admin = .ok (q_disc_result, 100)
        ∧ item_w_d1.unit_price = some 900
        ∧ apply_bulk_discount q_disc_result disc_p10 u_admin =
            .ok (q_disc_result2, 90)
        ∧ item_w_d2.unit_price = some 810)
    ∧ (∀ (quote : Quote) (user : User) (t : String) (v : ℚ),
      user.role = "admin" ∨ user.role = "manager" →
      (t = "percentage" ∨ t = "fixed_amount") → 0 < v → quote.items ≠ [] →
      ∃ q', apply_bulk_discount quote ⟨t, v, none⟩ user =
          .ok (q', (quote.items.map (item_discount_amt t v)).sum)
        ∧ q'.items = quote.items.map (discount_item t v)) := by
  refine ⟨?_, ?_, ?_,
    ⟨discount10_concrete, rfl, discount10_again_concrete, rfl⟩, ?_⟩
  · intro quote user t v l hstaff ht hv hne hlne
    have hne' : ¬ quote.items.isEmpty = true := by
      simp [List.isEmpty_iff, hne]
    exact apply_targeted_raises quote ⟨t, v, some l⟩ user l hstaff ht hv hne'
      rfl hlne
  · intro quote user v i item p hstaff hv hi hp hpp
    have hne : quote.items ≠ [] := by
      intro h
      rw [h] at hi
      simp at hi
    have happ := apply_all quote user "percentage" v hstaff (Or.inl rfl) hv hne
    have hitem : discount_item "percentage" v item =
        { item with
          unit_price := some (max 0 (p - p * (v / 100))),
          original_price := some p,
          discount_applied := some (p * (v / 100)) } := by
      simp [discount_item, hp, ne_of_gt hpp]
    have hamt : item_discount_amt "percentage" v item =
        p * (v / 100) * (item.quantity : ℚ) := by
      simp [item_discount_amt, hp, ne_of_gt hpp]
    refine ⟨_, happ, ?_, hamt, le_max_left 0 _, ?_⟩
    · show (quote.items.map (discount_item "percentage" v))[i]? = _
      rw [List.getElem?_map, hi]
      simp [hitem]
    · intro hv100
      have : p * (v / 100) ≤ p := by nlinarith
      rw [max_eq_right (by linarith)]
  · intro quote user v i item p hstaff hv hi hp hpp
    have hne : quote.items ≠ [] := by
      intro h
      rw [h] at hi
      simp at hi
    have happ := apply_all quote user "fixed_amount" v hstaff (Or.inr rfl) hv hne
    have hmax : max 0 (p - v) = p - min v p := by
      rcases le_total v p with h | h
      · rw [min_eq_left h, max_eq_right (by linarith)]
      · rw [min_eq_right h, max_eq_left (by linarith)]
        ring
    have hd : p - (p - v ⊓ p) = v ⊓ p := by ring
    have hitem : discount_item "fixed_amount" v item =
        { item with
          unit_price := some (p - min v p),
          original_price := some p,
          discount_applied := some (min v p) } := by
      simp only [discount_item, hp, Option.getD_some]
      rw [if_neg (ne_of_gt hpp)]
      simp only [show ("fixed_amount" : String) = "percentage" ↔ False by simp,
        if_false, hmax, hd]
    have hamt : item_discount_amt "fixed_amount" v item =
        min v p * (item.quantity : ℚ) := by
      simp only [item_discount_amt, hp, Option.getD_some]
      rw [if_neg (ne_of_gt hpp)]
      simp only [show ("fixed_amount" : String) = "percentage" ↔ False by simp,
        if_false, hmax, hd]
    refine ⟨_, happ, ?_, hamt, ?_⟩
    · show (quote.items.map (discount_item "fixed_amount" v))[i]? = _
      rw [List.getElem?_map, hi]
      simp [hitem]
    · rw [← hmax]
      exact le_max_left 0 _
  · intro quote user t v hstaff ht hv hne
    exact ⟨_, apply_all quote user t v hstaff ht hv hne, rfl⟩

/-- Witness for the amended C4: a targeted request fails with the internal
error; the percentage clause at `p = 1000, v = 10` and the fixed clause at
`p = 10, v = 15` (capped at the price) on all-items calls; and the
all-items map/sum clause on `q_draft`. -/
theorem claim_C4_witness :
    apply_bulk_discount q_draft ⟨"percentage", 10, some ["0"]⟩ u_admin =
      .error .internalError
    ∧ (∃ q', apply_bulk_discount q_draft ⟨"percentage", 10, none⟩ u_admin =
        .ok (q', (q_draft.items.map (item_discount_amt "percentage" 10)).sum)
      ∧ q'.items[0]? = some
          { item_w with
            unit_price := some (max 0 (1000 - 1000 * ((10 : ℚ) / 100))),
            original_price := some 1000,
            discount_applied := some (1000 * ((10 : ℚ) / 100)) }
      ∧ item_discount_amt "percentage" 10 item_w =
          1000 * ((10 : ℚ) / 100) * (item_w.quantity : ℚ)
      ∧ 0 ≤ max 0 (1000 - 1000 * ((10 : ℚ) / 100))
      ∧ ((10 : ℚ) ≤ 100 →
          max 0 (1000 - 1000 * ((10 : ℚ) / 100)) = 1000 - 1000 * ((10 : ℚ) / 100)))
    ∧ (∃ q', apply_bulk_discount q_upd_result ⟨"fixed_amount", 15, none⟩ u_admin =
        .ok (q',
          (q_upd_result.items.map (item_discount_amt "fixed_amount" 15)).sum)
      ∧ q'.items[0]? = some
          { item_s with
            unit_price := some (10 - min (15 : ℚ) 10),
            original_price := some 10,
            discount_applied := some (min (15 : ℚ) 10) }
      ∧ item_discount_amt "fixed_amount" 15 item_s =
          min (15 : ℚ) 10 * (item_s.quantity : ℚ)
      ∧ 0 ≤ 10 - min (15 : ℚ) 10)
    ∧ (∃ q', apply_bulk_discount q_draft ⟨"percentage", 10, none⟩ u_admin =
        .ok (q', (q_draft.items.map (item_discount_amt "percentage" 10)).sum)
      ∧ q'.items = q_draft.items.map (discount_item "percentage" 10)) := by
  refine ⟨?_, ?_, ?_, ?_⟩
  · exact claim_C4_discount.1 q_draft u_admin "percentage" 10 ["0"] (Or.inl rfl)
      (Or.inl rfl) (by norm_num) (by simp [q_draft]) (by simp)
  · exact claim_C4_discount.2.1 q_draft u_admin 10 0 item_w 1000 (Or.inl rfl)
      (by norm_num) rfl rfl (by norm_num)
  · exact claim_C4_discount.2.2.1 q_upd_result u_admin 15 0 item_s 10 (Or.inl rfl)
      (by norm_num) rfl rfl (by norm_num)
  · exact claim_C4_discount.2.2.2.2 q_draft u_admin "percentage" 10 (Or.inl rfl)
      (Or.inl rfl) (by norm_num) (by simp [q_draft])

/-! ## Claim C5 -/

/-- Claim C5 as stated is false: after a first 10% discount on the item
priced 1000, `original_price = 1000`; a second 10% discount overwrites it
with the then-current price 900 instead of preserving 1000. -/
theorem claim_C5_counterexample :
    apply_bulk_discount q_draft disc_p10 u_admin = .ok (q_disc_result, 100)
    ∧ q_disc_result.items = [item_w_d1]
    ∧ item_w_d1.original_price = some 1000
    ∧ apply_bulk_discount q_disc_result disc_p10 u_admin = .ok (q_disc_result2, 90)
    ∧ q_disc_result2.items = [item_w_d2]
    ∧ item_w_d2.original_price = some 900
    ∧ some (900 : ℚ) ≠ some (1000 : ℚ) := by
  refine ⟨discount10_concrete, rfl, rfl, discount10_again_concrete, rfl, rfl, ?_⟩
  intro h
  exact absurd (Option.some.inj h) (by norm_num)

/-- Claim C5, amended: a request naming target items fails with the generic
internal error and touches nothing, so items are only ever discounted by the
all-items path; every such pass stores each affected priced item's pre-call
current `unit_price` in `original_price`, overwriting any earlier value —
only after the first application does `original_price` hold the
pre-first-discount price. -/
theorem claim_C5_original_price :
    (∀ (quote : Quote) (user : User) (t : String) (v : ℚ) (l : List String),
      user.role = "admin" ∨ user.role = "manager" →
      (t = "percentage" ∨ t = "fixed_amount") → 0 < v → quote.items ≠ [] →
      l ≠ [] →
      apply_bulk_discount quote ⟨t, v, some l⟩ user = .error .internalError)
    ∧ (∀ (quote : Quote) (user : User) (t : String) (v : ℚ) (i : Nat)
        (item : QuoteItem) (p : ℚ),
      user.role = "admin" ∨ user.role = "manager" →
      (t = "percentage" ∨ t = "fixed_amount") → 0 < v →
      quote.items[i]? = some item →
      item.unit_price = some p → p ≠ 0 →
      ∃ q', apply_bulk_discount quote ⟨t, v, none⟩ user =
          .ok (q', (quote.items.map (item_discount_amt t v)).sum)
        ∧ q'.items[i]? = some (discount_item t v item)
        ∧ (discount_item t v item).original_price = some p) := by
  constructor
  · intro quote user t v l hstaff ht hv hne hlne
    have hne' : ¬ quote.items.isEmpty = true := by
      simp [List.isEmpty_iff, hne]
    exact apply_targeted_raises quote ⟨t, v, some l⟩ user l hstaff ht hv hne'
      rfl hlne
  · intro quote user t v i item p hstaff ht hv hi hp hp0
    have hne : quote.items ≠ [] := by
      intro h
      rw [h] at hi
      simp at hi
    refine ⟨_, apply_all quote user t v hstaff ht hv hne, ?_, ?_⟩
    · show (quote.items.map (discount_item t v))[i]? = _
      rw [List.getElem?_map, hi]
      rfl
    · simp [discount_item, hp, hp0]

/-- Witness for the amended C5: a targeted request fails, and a second
all-items 10% discount on the already discounted `q_disc_result` stores
`original_price = 900`, the pre-call price. -/
theorem claim_C5_witness :
    apply_bulk_discount q_disc_result ⟨"percentage", 10, some ["0"]⟩ u_admin =
      .error .internalError
    ∧ (∃ q', apply_bulk_discount q_disc_result ⟨"percentage", 10, none⟩ u_admin =
        .ok (q',
          (q_disc_result.items.map (item_discount_amt "percentage" 10)).sum)
      ∧ q'.items[0]? = some (discount_item "percentage" 10 item_w_d1)
      ∧ (discount_item "percentage" 10 item_w_d1).original_price = some 900) := by
  constructor
  · exact claim_C5_original_price.1 q_disc_result u_admin "percentage" 10 ["0"]
      (Or.inl rfl) (Or.inl rfl) (by norm_num) (by simp [q_disc_result]) (by simp)
  · exact claim_C5_original_price.2 q_disc_result u_admin "percentage" 10 0
      item_w_d1 900 (Or.inl rfl) (Or.inl rfl) (by norm_num) rfl rfl (by norm_num)

/-! ## Bulk coordinator lemmas -/

/-- For a validated action, every step yields exactly one outcome entry,
carrying the processed id. -/
theorem bulk_step_spec (action : String) (notes : Option String) (s : QuoteStore)
    (qid : String) (ha : action ∈ bulk_actions) :
    ∃ e, (bulk_step action notes s qid).2 = some e ∧
      Sum.elim (fun p => p.quote_id) (fun f => f.quote_id) e = qid := by
  have ha' : action = "approve" ∨ action = "reject" ∨ action = "archive" ∨
      action = "delete" := by simpa [bulk_actions] using ha
  rcases ha' with rfl | rfl | rfl | rfl <;>
    cases hf : store_find s qid <;>
      simp only [bulk_step, hf] <;>
      first
        | exact ⟨_, rfl, rfl⟩
        | (split_ifs <;> first | exact ⟨_, rfl, rfl⟩ | simp_all)

/-- The loop distributes over list concatenation: the tail is processed in
the store left by the prefix and the outcome lists concatenate in order. -/
theorem bulk_run_append (action : String) (notes : Option String) :
    ∀ (xs ys : List String) (s : QuoteStore),
      bulk_run action notes (xs ++ ys) s =
        ⟨(bulk_run action notes ys (bulk_run action notes xs s).store).store,
         (bulk_run action notes xs s).processed ++
           (bulk_run action notes ys (bulk_run action notes xs s).store).processed,
         (bulk_run action notes xs s).failed ++
           (bulk_run action notes ys (bulk_run action notes xs s).store).failed⟩ := by
  intro xs
  induction xs with
  | nil => intro ys s; simp [bulk_run]
  | cons x xs ih =>
    intro ys s
    simp only [List.cons_append, bulk_run]
    cases hstep : (bulk_step action notes s x).2 with
    | none => simp [hstep, ih]
    | some e => cases e with
      | inl p => simp [hstep, ih]
      | inr f => simp [hstep, ih]

/-- Every requested id ends up in exactly one of the two outcome lists:
their ids, in order of appearance, are a permutation of the input. -/
theorem bulk_run_ids (action : String) (notes : Option String)
    (ha : action ∈ bulk_actions) :
    ∀ (ids : List String) (s : QuoteStore),
      ((bulk_run action notes ids s).processed.map (fun p => p.quote_id) ++
        (bulk_run action notes ids s).failed.map (fun f => f.quote_id)).Perm
        ids := by
  intro ids
  induction ids with
  | nil => intro s; simp [bulk_run]
  | cons qid rest ih =>
    intro s
    obtain ⟨e, he, hid⟩ := bulk_step_spec action notes s qid ha
    cases e with
    | inl p =>
      simp only [bulk_run, he, List.map_cons, List.cons_append]
      have hpq : p.quote_id = qid := hid
      rw [hpq]
      exact (ih _).cons qid
    | inr f =>
      simp only [bulk_run, he, List.map_cons]
      have hfq : f.quote_id = qid := hid
      rw [hfq]
      exact List.perm_middle.trans ((ih _).cons qid)

/-- `store_set_status` changes no document id. -/
theorem store_ids_set_status (s : QuoteStore) (qid st : String)
    (an : Option String) :
    (store_set_status s qid st an).quotes.map (fun q => q.id) =
      s.quotes.map (fun q => q.id) := by
  simp only [store_set_status, List.map_map]
  apply List.map_congr_left
  intro q _
  by_cases h : q.id = qid <;> simp [h]

/-- A status write preserves every non-draft quote (possibly restamped with
a non-draft status). -/
theorem set_status_preserves (s : QuoteStore) (qid st : String)
    (an : Option String) (q : Quote)
    (hq : q ∈ s.quotes) (hnd : q.status ≠ "draft") (hst : st ≠ "draft") :
    ∃ q', q' ∈ (store_set_status s qid st an).quotes ∧ q'.id = q.id ∧
      q'.status ≠ "draft" := by
  refine ⟨(if q.id = qid then { q with status := st, admin_notes := an } else q),
    ?_, ?_, ?_⟩
  · simp only [store_set_status]
    exact List.mem_map_of_mem _ hq
  · by_cases hid : q.id = qid <;> simp [hid]
  · by_cases hid : q.id = qid <;> simp [hid, hnd, hst]

/-- Deleting the draft document found for `qid` cannot remove a non-draft
quote (ids being unique). -/
theorem store_delete_preserves (s : QuoteStore) (qid : String) (q found : Quote)
    (hq : q ∈ s.quotes) (hnd : q.status ≠ "draft")
    (hnodup : (s.quotes.map (fun q => q.id)).Nodup)
    (hf : store_find s qid = some found) (hfd : found.status = "draft") :
    ∃ q', q' ∈ (store_delete s qid).quotes ∧ q'.id = q.id ∧
      q'.status ≠ "draft" := by
  have hfound : found ∈ s.quotes := List.mem_of_find?_eq_some hf
  have hfid : found.id = qid := by simpa using List.find?_some hf
  have hqid : q.id ≠ qid := by
    intro hcontra
    have hqf : q = found :=
      List.inj_on_of_nodup_map hnodup hq hfound (by rw [hcontra, hfid])
    rw [hqf, hfd] at hnd
    exact hnd rfl
  refine ⟨q, ?_, rfl, hnd⟩
  simp only [store_delete]
  exact List.mem_filter.mpr ⟨hq, by simpa using hqid⟩

/-- One bulk step never removes a non-draft quote: some quote with the same
id, still non-draft, remains in the store. -/
theorem bulk_step_preserves (action : String) (notes : Option String)
    (s : QuoteStore) (qid : String) (q : Quote)
    (hq : q ∈ s.quotes) (hnd : q.status ≠ "draft")
    (hnodup : (s.quotes.map (fun q => q.id)).Nodup) :
    ∃ q', q' ∈ (bulk_step action notes s qid).1.quotes ∧ q'.id = q.id ∧
      q'.status ≠ "draft" := by
  cases hf : store_find s qid with
  | none => exact ⟨q, by simp [bulk_step, hf, hq], rfl, hnd⟩
  | some found =>
    simp only [bulk_step, hf]
    split_ifs with h1 h2 h3 h4 h5 h6 h7 h8 <;>
      first
        | exact ⟨q, hq, rfl, hnd⟩
        | exact set_status_preserves s qid _ notes q hq hnd (by decide)
        | exact store_delete_preserves s qid q found hq hnd hnodup hf
            (not_not.mp ‹¬found.status ≠ "draft"›)

/-- One bulk step keeps the document ids duplicate-free. -/
theorem bulk_step_nodup (action : String) (notes : Option String)
    (s : QuoteStore) (qid : String)
    (h : (s.quotes.map (fun q => q.id)).Nodup) :
    ((bulk_step action notes s qid).1.quotes.map (fun q => q.id)).Nodup := by
  cases hf : store_find s qid with
  | none => simpa [bulk_step, hf] using h
  | some found =>
    simp only [bulk_step, hf]
    split_ifs <;>
      first
        | exact h
        | (rw [store_ids_set_status]; exact h)
        | (refine List.Nodup.sublist ?_ h
           exact ((List.filter_sublist _).map _))

/-- No run of the bulk loop removes a non-draft quote. -/
theorem bulk_run_preserves (action : String) (notes : Option String) :
    ∀ (ids : List String) (s : QuoteStore) (q : Quote),
      q ∈ s.quotes → q.status ≠ "draft" →
      (s.quotes.map (fun q => q.id)).Nodup →
      ∃ q', q' ∈ (bulk_run action notes ids s).store.quotes ∧ q'.id = q.id ∧
        q'.status ≠ "draft" := by
  intro ids
  induction ids with
  | nil =>
    intro s q hq hnd _
    exact ⟨q, by simpa [bulk_run] using hq, rfl, hnd⟩
  | cons x rest ih =>
    intro s q hq hnd hnodup
    obtain ⟨q1, hq1, hid1, hnd1⟩ :=
      bulk_step_preserves action notes s x q hq hnd hnodup
    have hnodup1 := bulk_step_nodup action notes s x hnodup
    obtain ⟨q2, hq2, hid2, hnd2⟩ :=
      ih (bulk_step action notes s x).1 q1 hq1 hnd1 hnodup1
    have hst : (bulk_run action notes (x :: rest) s).store =
        (bulk_run action notes rest (bulk_step action notes s x).1).store := by
      simp only [bulk_run]
      cases hstep : (bulk_step action notes s x).2 with
      | none => simp [hstep]
      | some e => cases e <;> simp [hstep]
    rw [hst]
    exact ⟨q2, hq2, hid2.trans hid1, hnd2⟩

/-! ## Claim C6 -/

/-- Claim C6: the bulk action processes ids independently in input order and
always returns both lists (their ids partition the input); a missing quote
contributes a `"Quote not found"` failure and the remaining ids are still
processed against the unchanged store; a `delete` on a non-draft quote
contributes a `"Can only delete draft quotes"` failure and leaves the store
unchanged; an id on which the write raises contributes the generic
`"Processing error"` failure and leaves the store unchanged — none of these
aborts the batch. -/
theorem claim_C6_bulk :
    (∀ action, action ∈ bulk_actions →
      ∀ (notes : Option String) (ids : List String) (s : QuoteStore),
      ((bulk_run action notes ids s).processed.map (fun p => p.quote_id) ++
        (bulk_run action notes ids s).failed.map (fun f => f.quote_id)).Perm
        ids)
    ∧ (∀ action, action ∈ bulk_actions →
      ∀ (notes : Option String) (s : QuoteStore) (pre : List String)
        (qid : String) (post : List String),
      store_find (bulk_run action notes pre s).store qid = none →
      bulk_run action notes (pre ++ qid :: post) s =
        ⟨(bulk_run action notes post (bulk_run action notes pre s).store).store,
         (bulk_run action notes pre s).processed ++
           (bulk_run action notes post
             (bulk_run action notes pre s).store).processed,
         (bulk_run action notes pre s).failed ++
           ⟨qid, "Quote not found"⟩ ::
             (bulk_run action notes post
               (bulk_run action notes pre s).store).failed⟩)
    ∧ (∀ (notes : Option String) (s : QuoteStore) (pre : List String)
        (qid : String) (post : List String) (q : Quote),
      store_find (bulk_run "delete" notes pre s).store qid = some q →
      q.status ≠ "draft" →
      bulk_run "delete" notes (pre ++ qid :: post) s =
        ⟨(bulk_run "delete" notes post
            (bulk_run "delete" notes pre s).store).store,
         (bulk_run "delete" notes pre s).processed ++
           (bulk_run "delete" notes post
             (bulk_run "delete" notes pre s).store).processed,
         (bulk_run "delete" notes pre s).failed ++
           ⟨qid, "Can only delete draft quotes"⟩ ::
             (bulk_run "delete" notes post
               (bulk_run "delete" notes pre s).store).failed⟩)
    ∧ (∀ action, action ∈ bulk_actions →
      ∀ (notes : Option String) (s : QuoteStore) (pre : List String)
        (qid : String) (post : List String) (q : Quote),
      store_find (bulk_run action notes pre s).store qid = some q →
      qid ∈ (bulk_run action notes pre s).store.failing →
      (action = "delete" → q.status = "draft") →
      bulk_run action notes (pre ++ qid :: post) s =
        ⟨(bulk_run action notes post (bulk_run action notes pre s).store).store,
         (bulk_run action notes pre s).processed ++
           (bulk_run action notes post
             (bulk_run action notes pre s).store).processed,
         (bulk_run action notes pre s).failed ++
           ⟨qid, "Processing error"⟩ ::
             (bulk_run action notes post
               (bulk_run action notes pre s).store).failed⟩) := by
  refine ⟨?_, ?_, ?_, ?_⟩
  · exact fun action ha notes ids s => bulk_run_ids action notes ha ids s
  · intro action ha notes s pre qid post hf
    rw [bulk_run_append]
    have hstep : bulk_step action notes (bulk_run action notes pre s).store qid =
        ((bulk_run action notes pre s).store,
          some (.inr ⟨qid, "Quote not found"⟩)) := by
      simp [bulk_step, hf]
    simp [bulk_run, hstep]
  · intro notes s pre qid post q hf hnd
    rw [bulk_run_append]
    have hstep : bulk_step "delete" notes (bulk_run "delete" notes pre s).store qid =
        ((bulk_run "delete" notes pre s).store,
          some (.inr ⟨qid, "Can only delete draft quotes"⟩)) := by
      simp [bulk_step, hf, hnd]
    simp [bulk_run, hstep]
  · intro action ha notes s pre qid post q hf hfail hdd
    rw [bulk_run_append]
    have ha' : action = "approve" ∨ action = "reject" ∨ action = "archive" ∨
        action = "delete" := by simpa [bulk_actions] using ha
    have hstep : bulk_step action notes (bulk_run action notes pre s).store qid =
        ((bulk_run action notes pre s).store,
          some (.inr ⟨qid, "Processing error"⟩)) := by
      rcases ha' with rfl | rfl | rfl | rfl
      · simp [bulk_step, hf, hfail]
      · simp [bulk_step, hf, hfail]
      · simp [bulk_step, hf, hfail]
      · simp [bulk_step, hf, hfail, hdd rfl]
    simp [bulk_run, hstep]

/-- Witness for C6: concrete instantiations — id accounting for an approve
batch, a missing id mid-batch, a delete on a sent quote, and an injected
write error. -/
theorem claim_C6_witness :
    ((bulk_run "approve" none ["q1", "q2"] store0).processed.map
        (fun p => p.quote_id) ++
      (bulk_run "approve" none ["q1", "q2"] store0).failed.map
        (fun f => f.quote_id)).Perm ["q1", "q2"]
    ∧ bulk_run "approve" none ([] ++ "qX" :: ["q2"]) store0 =
        ⟨(bulk_run "approve" none ["q2"]
            (bulk_run "approve" none [] store0).store).store,
         (bulk_run "approve" none [] store0).processed ++
           (bulk_run "approve" none ["q2"]
             (bulk_run "approve" none [] store0).store).processed,
         (bulk_run "approve" none [] store0).failed ++
           ⟨"qX", "Quote not found"⟩ ::
             (bulk_run "approve" none ["q2"]
               (bulk_run "approve" none [] store0).store).failed⟩
    ∧ bulk_run "delete" none ([] ++ "q2" :: []) store0 =
        ⟨(bulk_run "delete" none []
            (bulk_run "delete" none [] store0).store).store,
         (bulk_run "delete" none [] store0).processed ++
           (bulk_run "delete" none []
             (bulk_run "delete" none [] store0).store).processed,
         (bulk_run "delete" none [] store0).failed ++
           ⟨"q2", "Can only delete draft quotes"⟩ ::
             (bulk_run "delete" none []
               (bulk_run "delete" none [] store0).store).failed⟩
    ∧ bulk_run "approve" none ([] ++ "q1" :: []) store_fail =
        ⟨(bulk_run "approve" none []
            (bulk_run "approve" none [] store_fail).store).store,
         (bulk_run "approve" none [] store_fail).processed ++
           (bulk_run "approve" none []
             (bulk_run "approve" none [] store_fail).store).processed,
         (bulk_run "approve" none [] store_fail).failed ++
           ⟨"q1", "Processing error"⟩ ::
             (bulk_run "approve" none []
               (bulk_run "approve" none [] store_fail).store).failed⟩ := by
  refine ⟨?_, ?_, ?_, ?_⟩
  · exact claim_C6_bulk.1 "approve" (by decide) none ["q1", "q2"] store0
  · exact claim_C6_bulk.2.1 "approve" (by decide) none store0 [] "qX" ["q2"] rfl
  · exact claim_C6_bulk.2.2.1 none store0 [] "q2" [] q_sent rfl (by decide)
  · exact claim_C6_bulk.2.2.2 "approve" (by decide) none store_fail [] "q1" []
      q_draft rfl (by decide) (fun h => absurd h (by decide))

/-! ## Claim C9 -/

/-- Claim C9 as stated is false: the single-quote `delete_quote` endpoint
hard-deletes a quote whose status is `sent` — no draft check guards it. -/
theorem claim_C9_counterexample :
    q_sent.status = "sent"
    ∧ q_sent ∈ store_sent.quotes
    ∧ delete_quote store_sent "q2" u_admin = .ok ⟨[], []⟩
    ∧ ∀ q', q' ∈ ([] : List Quote) → q'.id ≠ "q2" := by
  refine ⟨rfl, by simp [store_sent], rfl, by simp⟩

/-- Claim C9, amended: under bulk operations a quote is removed from the
store only while its status is `draft` (a non-draft quote always survives,
possibly transitioned to `archived`), but the single-quote `delete_quote`
endpoint (staff-only) hard-deletes the found document regardless of its
status. -/
theorem claim_C9_hard_delete :
    (∀ (action : String) (notes : Option String) (ids : List String)
      (s : QuoteStore) (q : Quote),
      q ∈ s.quotes → q.status ≠ "draft" →
      (s.quotes.map (fun q => q.id)).Nodup →
      ∃ q', q' ∈ (bulk_run action notes ids s).store.quotes ∧ q'.id = q.id)
    ∧ (∀ (s : QuoteStore) (qid : String) (user : User) (q : Quote),
      user.role = "admin" ∨ user.role = "manager" →
      store_find s qid = some q →
      delete_quote s qid user = .ok (store_delete s qid)
      ∧ ∀ q', q' ∈ (store_delete s qid).quotes → q'.id ≠ qid) := by
  constructor
  · intro action notes ids s q hq hnd hnodup
    obtain ⟨q', h1, h2, _⟩ := bulk_run_preserves action notes ids s q hq hnd hnodup
    exact ⟨q', h1, h2⟩
  · intro s qid user q hstaff hf
    constructor
    · simp [delete_quote, hstaff, hf]
    · intro q' hq'
      have hmem := List.of_mem_filter hq'
      simpa using hmem

/-- Witness for the amended C9: the sent quote `q2` survives a bulk delete
aimed at it, while the single-quote endpoint deletes it outright. -/
theorem claim_C9_witness :
    (∃ q', q' ∈ (bulk_run "delete" none ["q2"] store_sent).store.quotes ∧
      q'.id = q_sent.id)
    ∧ (delete_quote store_sent "q2" u_admin = .ok (store_delete store_sent "q2")
        ∧ ∀ q', q' ∈ (store_delete store_sent "q2").quotes → q'.id ≠ "q2") := by
  constructor
  · exact claim_C9_hard_delete.1 "delete" none ["q2"] store_sent q_sent
      (by simp [store_sent]) (by decide) (by simp [store_sent])
  · exact claim_C9_hard_delete.2 store_sent "q2" u_admin q_sent (Or.inl rfl) rfl

end StarkProducts
